import Mathlib

/-!
Shallow embedding of the BiegeAI query-orchestration core.

Source files embedded:
* `src/backend/agent/rag.py` — relevance filtering of retrieved documents.
* `src/backend/conversation_manager.py` — session store with eviction,
  expiry, message trimming and context windowing.
* `src/backend/agent/mcp.py` — the bounded tool-invocation loop
  (`MCPClient.run_with_context`) and tool execution.
* `src/backend/main.py` — the `/ask` endpoint's MCP-failure fallback.

Modelling conventions:
* Python `float` similarity scores and `time.time()` instants are modelled
  as `ℚ`; every claim about them is purely order-theoretic.
* Python dicts (insertion-ordered, unique keys) are modelled as association
  lists; dict assignment replaces in place when the key exists and appends
  otherwise.  Key uniqueness is the `keysNodup` predicate.
* The completion service `gemini_client.generate` is modelled as a stream
  indexed by the number of `generate` calls made so far; a call either
  returns a response or raises (`Except`).  Responses are modelled at the
  granularity the loop consumes them: either a well-formed parsed tool call
  (the JSON-between-braces extraction succeeded with both `tool` and
  `arguments` keys) or plain text (everything else, including parse
  failures).  `raw` is the verbatim response text.
* The tool loop's `while` may not terminate (the duplicate guard's
  `continue` does not increment the counter), so it is embedded with
  explicit fuel; `run_with_context` returns `none` exactly when the Python
  loop has not finished within the given fuel.
-/

/-! ### RelevanceFilter — `src/backend/agent/rag.py` -/

/-- Retrieved document; only `page_content` is consulted by the core. -/
structure Document where
  page_content : String
deriving DecidableEq, Repr

/-- `SIMILARITY_THRESHOLD = 1.5` (cosine distance, lower is better). -/
def SIMILARITY_THRESHOLD : ℚ := 3 / 2

/-- `MIN_DOCUMENTS = 1`. -/
def MIN_DOCUMENTS : Nat := 1

/-- `filter_documents_by_similarity(docs_and_scores, threshold, min_docs)`:
keep pairs with `score <= threshold`; if fewer than `min_docs` survive and
the input was non-empty, fall back to the first `min_docs` input pairs. -/
def filter_documents_by_similarity (docs_and_scores : List (Document × ℚ))
    (threshold : ℚ) (min_docs : Nat) : List (Document × ℚ) :=
  if docs_and_scores = [] then []
  else
    let filtered_docs := docs_and_scores.filter (fun ds => decide (ds.2 ≤ threshold))
    if filtered_docs.length < min_docs ∧ 0 < docs_and_scores.length then
      docs_and_scores.take min_docs
    else
      filtered_docs

/-! ### ConversationStore — `src/backend/conversation_manager.py` -/

/-- Dataclass `Message`. -/
structure Message where
  sender : String
  text : String
  timestamp : ℚ
  session_id : String
deriving DecidableEq, Repr

/-- Dataclass `ConversationSession`. -/
structure ConversationSession where
  session_id : String
  messages : List Message
  last_activity : ℚ
  created_at : ℚ
deriving DecidableEq, Repr

/-- Constructor parameters of `ConversationManager` (defaults as in source). -/
structure CMConfig where
  max_sessions : Nat
  session_timeout_minutes : ℚ
  max_messages_per_session : Nat
  max_context_length : Nat
  consecutive_timeout_minutes : ℚ
deriving DecidableEq, Repr

/-- The default configuration of `ConversationManager.__init__`. -/
def defaultCMConfig : CMConfig :=
  { max_sessions := 100
    session_timeout_minutes := 30
    max_messages_per_session := 50
    max_context_length := 4000
    consecutive_timeout_minutes := 5 }

/-- `self.sessions`: an insertion-ordered dict from session id to session. -/
abbrev Store : Type := List (String × ConversationSession)

/-- Dict key lookup (`self.sessions[sid]` / `sid in self.sessions`). -/
def lookup : Store → String → Option ConversationSession
  | [], _ => none
  | e :: rest, sid => if e.1 = sid then some e.2 else lookup rest sid

/-- Dict assignment `self.sessions[sid] = s`: replace in place if the key
exists, append otherwise. -/
def insertSession : Store → String → ConversationSession → Store
  | [], sid, s => [(sid, s)]
  | e :: rest, sid, s => if e.1 = sid then (sid, s) :: rest else e :: insertSession rest sid s

/-- The keys of the store are pairwise distinct (guaranteed by Python's
dict representation; an invariant of the association-list model). -/
def keysNodup (store : Store) : Prop := (store.map Prod.fst).Nodup

instance (store : Store) : Decidable (keysNodup store) :=
  inferInstanceAs (Decidable (store.map Prod.fst).Nodup)

/-- The expiry predicate of `_cleanup_expired_sessions`: a session is kept
when `now - last_activity` does NOT exceed the timeout (in seconds). -/
def notExpired (cfg : CMConfig) (now : ℚ) (e : String × ConversationSession) : Bool :=
  decide (¬ (now - e.2.last_activity > cfg.session_timeout_minutes * 60))

/-- The sessions surviving the expiry phase of the cleanup. -/
def keptSessions (cfg : CMConfig) (now : ℚ) (store : Store) : Store :=
  store.filter (notExpired cfg now)

/-- The ids deleted by the capacity phase: the first
`len - max_sessions` entries of the surviving sessions stably sorted by
`last_activity` ascending (Python's `sorted` with that key). -/
def evictIds (cfg : CMConfig) (now : ℚ) (store : Store) : List String :=
  (((keptSessions cfg now store).mergeSort
      (fun a b => decide (a.2.last_activity ≤ b.2.last_activity))).take
    ((keptSessions cfg now store).length - cfg.max_sessions)).map Prod.fst

/-- `_generate_session_id`: `f"{user_identifier}_{int(time.time())}"`. -/
def generate_session_id (user_identifier : String) (now : ℚ) : String :=
  user_identifier ++ "_" ++ toString ⌊now⌋

/-- `_cleanup_expired_sessions`: first delete every session whose
`last_activity` is strictly more than `session_timeout_minutes * 60`
seconds old, then, if still above `max_sessions`, delete the
least-recently-active sessions (stable sort by `last_activity`, as
Python's `sorted`) until exactly `max_sessions` remain. -/
def cleanup_expired_sessions (cfg : CMConfig) (now : ℚ) (store : Store) : Store :=
  if (keptSessions cfg now store).length > cfg.max_sessions then
    (keptSessions cfg now store).filter
      (fun e => decide (e.1 ∉ evictIds cfg now store))
  else keptSessions cfg now store

/-- The id a create falls back to: `session_id or self._generate_session_id()`
(Python truthiness: `None` and `""` both fall through to the generator). -/
def newSessionIdOf (now : ℚ) (sid? : Option String) : String :=
  match sid? with
  | some sid => if sid = "" then generate_session_id "default" now else sid
  | none => generate_session_id "default" now

/-- The create branch of `get_or_create_session`: register a fresh session
(empty messages, `last_activity = created_at = now`) under the chosen id. -/
def createSessionIn (now : ℚ) (st : Store) (sid? : Option String) : String × Store :=
  (newSessionIdOf now sid?,
   insertSession st (newSessionIdOf now sid?)
     ⟨newSessionIdOf now sid?, [], now, now⟩)

/-- `get_or_create_session(session_id)`: run cleanup; if the given id is
truthy and live, refresh its `last_activity` and return it; otherwise
create a new session. -/
def get_or_create_session (cfg : CMConfig) (now : ℚ) (sid? : Option String)
    (store : Store) : String × Store :=
  match sid? with
  | some sid =>
    if sid = "" then createSessionIn now (cleanup_expired_sessions cfg now store) sid?
    else
      match lookup (cleanup_expired_sessions cfg now store) sid with
      | some s =>
        (sid, insertSession (cleanup_expired_sessions cfg now store) sid
          { s with last_activity := now })
      | none => createSessionIn now (cleanup_expired_sessions cfg now store) sid?
  | none => createSessionIn now (cleanup_expired_sessions cfg now store) sid?

/-- FIFO trim of `add_message`: drop the oldest excess messages when the
count exceeds `max_messages_per_session`. -/
def trimMessages (cfg : CMConfig) (msgs : List Message) : List Message :=
  if msgs.length > cfg.max_messages_per_session then
    msgs.drop (msgs.length - cfg.max_messages_per_session)
  else msgs

/-- `add_message(session_id, sender, text)`: recreate a missing session,
start a new session on a time gap larger than `consecutive_timeout_minutes`,
append the message, refresh `last_activity`, FIFO-trim.  The `none` arms of
the two inner matches are unreachable (the looked-up id was just created or
refreshed); they return the store unchanged. -/
def add_message (cfg : CMConfig) (now : ℚ) (store : Store) (sid : String)
    (sender text : String) : Bool × Store :=
  let (sid1, store1) :=
    if (lookup store sid).isSome then (sid, store)
    else get_or_create_session cfg now (some sid) store
  match lookup store1 sid1 with
  | none => (true, store1)
  | some session =>
    let (sid2, store2, session2) :=
      match session.messages.getLast? with
      | some lastMsg =>
        if (now - lastMsg.timestamp) / 60 > cfg.consecutive_timeout_minutes then
          let (nsid, nstore) := get_or_create_session cfg now none store1
          match lookup nstore nsid with
          | some s => (nsid, nstore, s)
          | none => (nsid, nstore, session)
        else (sid1, store1, session)
      | none => (sid1, store1, session)
    let msg : Message := ⟨sender, text, now, sid2⟩
    let session3 :=
      { session2 with
        messages := trimMessages cfg (session2.messages ++ [msg])
        last_activity := now }
    (true, insertSession store2 sid2 session3)

/-- One transcript line: `f"{message.sender}: {message.text}"`. -/
def msgLine (m : Message) : String := m.sender ++ ": " ++ m.text

/-- The backward accumulation loop of `get_conversation_context`: the input
list is the session's messages most-recent-first (`reversed(messages)`);
stop at the first line that would push the total past `max_context_length`;
`insert(0, ...)` restores chronological order. -/
def collectParts (cfg : CMConfig) : List Message → Nat → List String × Nat
  | [], total => ([], total)
  | m :: rest, total =>
    if total + (msgLine m).length > cfg.max_context_length then ([], total)
    else
      let res := collectParts cfg rest (total + (msgLine m).length)
      (res.1 ++ [msgLine m], res.2)

/-- `"\n".join(parts)`. -/
def joinLines : List String → String
  | [] => ""
  | [x] => x
  | x :: y :: rest => x ++ "\n" ++ joinLines (y :: rest)

/-- The debug-info dict of `get_conversation_context` (the early returns
fill only the first three keys; the remaining fields default). -/
structure ContextStats where
  session_id : String
  context_length : Nat
  message_count : Nat
  total_session_messages : Nat
  context_truncated : Bool
deriving DecidableEq, Repr

/-- The transcript lines and running total after the backward scan and the
conditional append of the current-question line (`"user: " + q`). -/
def contextParts (cfg : CMConfig) (msgs : List Message) (q : String) :
    List String × Nat :=
  if (collectParts cfg msgs.reverse 0).2 + ("user: " ++ q).length ≤
      cfg.max_context_length then
    ((collectParts cfg msgs.reverse 0).1 ++ ["user: " ++ q],
     (collectParts cfg msgs.reverse 0).2 + ("user: " ++ q).length)
  else collectParts cfg msgs.reverse 0

/-- `get_conversation_context(session_id, current_question)`.  The store is
threaded through unchanged (the method only reads `self.sessions`); the
returned store is the second component. -/
def get_conversation_context (cfg : CMConfig) (store : Store) (sid : String)
    (current_question : String) : (String × ContextStats) × Store :=
  match lookup store sid with
  | none => (("", ⟨sid, 0, 0, 0, false⟩), store)
  | some session =>
    if session.messages = [] then (("", ⟨sid, 0, 0, 0, false⟩), store)
    else
      ((joinLines (contextParts cfg session.messages current_question).1,
        ⟨sid, (contextParts cfg session.messages current_question).2,
         (contextParts cfg session.messages current_question).1.length,
         session.messages.length,
         decide ((contextParts cfg session.messages current_question).1.length <
           session.messages.length)⟩), store)

/-! ### ToolRegistry and ToolLoopOrchestrator — `src/backend/agent/mcp.py` -/

/-- A registered tool (`MCPTool`): name, description, and handler.  The
argument-extraction cascade of `execute_tool` (query / question / location /
expression / url / operation / timezone / stringified fallback) and the
`try/except` that turns a tool exception into a `Tool execution error: ...`
string both live inside the tool boundary, so the handler is modelled as a
total function from the argument payload to the result string. -/
structure MCPTool where
  name : String
  description : String
  handler : String → String

/-- A recorded entry of `all_tool_results`. -/
structure ToolCallRecord where
  tool : String
  arguments : String
  result : String
deriving DecidableEq, Repr

/-- The outcome of parsing one `generate` response: either a well-formed
tool call (JSON between the first brace and the last brace parsed, with
both a `tool` and an `arguments` field) or plain text (anything else,
including JSON parse failures).  `raw` is the verbatim response text. -/
inductive ModelResponse where
  | toolCall (toolName : String) (arguments : String) (raw : String)
  | plain (text : String)
deriving DecidableEq, Repr

/-- The verbatim text of a response. -/
def ModelResponse.raw : ModelResponse → String
  | .toolCall _ _ raw => raw
  | .plain text => text

/-- The completion service: the n-th call to `gemini_client.generate`
either raises (`.error`) or returns a response. -/
def CompletionService : Type := Nat → Except String ModelResponse

/-- `max_tool_calls = 5` (local constant of `run_with_context`). -/
def maxToolCalls : Nat := 5

/-- `execute_tool(tool_name, arguments)`: first tool with a matching name
handles the call; a missing name yields a descriptive string, not an
error. -/
def execute_tool (tools : List MCPTool) (tool_name arguments : String) : String :=
  match tools.find? (fun t => t.name = tool_name) with
  | some t => t.handler arguments
  | none => "Tool \x27" ++ tool_name ++ "\x27 not found"

/-- The mutable locals of the tool loop, plus `callIdx`, the number of
`generate` calls made so far (the index into the completion stream), and
`lastResponse`, the latest raw response text (Python's `response`). -/
structure LoopState where
  systemPrompt : String
  toolCallsMade : Nat
  allToolResults : List ToolCallRecord
  lastUsedTool : Option String
  lastResponse : String
  callIdx : Nat
deriving DecidableEq, Repr

/-- The initial system prompt.  Its prose (protocol description, language
mirroring and sanitization contracts) is abbreviated: no claim depends on
the prompt text, and the model stream is indexed by call count. -/
def initialSystemPrompt (tools : List MCPTool) (rag_context : Option String) : String :=
  "You are an AI assistant with access to tools through the Model Context Protocol (MCP).\n\nAvailable tools:\n"
    ++ String.join (tools.map (fun t =>
        "\nTool: " ++ t.name ++ "\nDescription: " ++ t.description ++ "\n"))
    ++ "\n\nTool-call protocol, anti-duplication rule, language mirroring and sanitization instructions.\n"
    ++ (match rag_context with
        | some rc => "\n\nRelevant context from knowledge base:\n" ++ rc
            ++ "\n\nUse this context along with general knowledge when relevant to the question."
        | none => "")

/-- The initial loop state of `run_with_context`. -/
def initState (tools : List MCPTool) (rag_context : Option String) : LoopState :=
  { systemPrompt := initialSystemPrompt tools rag_context
    toolCallsMade := 0
    allToolResults := []
    lastUsedTool := none
    lastResponse := ""
    callIdx := 0 }

/-- The duplicate-guard warning appended to the running system prompt. -/
def dupWarning (prompt tool_name : String) : String :=
  prompt ++ "\n\nWARNING: Tool \x27" ++ tool_name
    ++ "\x27 was just used. Please use a different tool or provide a final answer based on the previous result."

/-- The execute transition: run the tool, record a `ToolCallRecord`, append
the result to the running system prompt, update `last_used_tool`, increment
the executed-call counter. -/
def execStep (tools : List MCPTool) (st : LoopState) (tool_name arguments : String) :
    LoopState :=
  let tool_result := execute_tool tools tool_name arguments
  { st with
    allToolResults := st.allToolResults ++ [⟨tool_name, arguments, tool_result⟩]
    lastUsedTool := some tool_name
    systemPrompt := st.systemPrompt ++ "\n\nTool execution result: " ++ tool_result
      ++ "\n\nYou can use this result to decide whether to use another tool or provide a final answer. Remember: Do not use the same tool consecutively."
    toolCallsMade := st.toolCallsMade + 1 }

/-- How the `while` loop of `run_with_context` can end: `.done` — the loop
exited normally (either the response was not a tool call, or the
executed-call counter reached `max_tool_calls`); `.raised` — a `generate`
call raised (the exception will be caught at the orchestrator boundary);
`.outOfFuel` — the loop has not finished within the fuel (the Python loop
is still running). -/
inductive LoopResult where
  | done (st : LoopState)
  | raised (msg : String) (st : LoopState)
  | outOfFuel (st : LoopState)
deriving DecidableEq, Repr

/-- The state carried by a loop result. -/
def LoopResult.state : LoopResult → LoopState
  | .done st => st
  | .raised _ st => st
  | .outOfFuel st => st

/-- The `while tool_calls_made < max_tool_calls` loop of
`run_with_context`, one fuel unit per iteration.  Each iteration asks the
service for a completion; a parsed tool call naming the immediately
previously used tool triggers the duplicate guard (warning appended,
counter NOT incremented); any other tool call is executed; a non-tool-call
response breaks out of the loop. -/
def runLoop (svc : CompletionService) (tools : List MCPTool) :
    Nat → LoopState → LoopResult
  | 0, st => .outOfFuel st
  | fuel + 1, st =>
    if st.toolCallsMade < maxToolCalls then
      match svc st.callIdx with
      | .error e => .raised e st
      | .ok response =>
        let st1 := { st with lastResponse := response.raw, callIdx := st.callIdx + 1 }
        match response with
        | .plain _ => .done st1
        | .toolCall tool_name arguments _ =>
          if some tool_name = st.lastUsedTool then
            runLoop svc tools fuel
              { st1 with systemPrompt := dupWarning st1.systemPrompt tool_name }
          else
            runLoop svc tools fuel (execStep tools st1 tool_name arguments)
    else .done st

/-- `f"[MCP Error] {str(e)}"` — the string returned by the
`except Exception` handler of `run_with_context`. -/
def mcpError (e : String) : String := "[MCP Error] " ++ e

/-- `run_with_context(question, rag_context)`: run the tool loop; if any
tool was executed, issue one more `generate` call (the synthesis step) and
return its text, otherwise return the model's response unchanged; any
exception raised inside is caught and converted to an `[MCP Error]` string.
Returns `none` exactly when the Python loop has not terminated within
`fuel` iterations. -/
def run_with_context (svc : CompletionService) (tools : List MCPTool)
    (rag_context : Option String) (fuel : Nat) : Option String :=
  match runLoop svc tools fuel (initState tools rag_context) with
  | .outOfFuel _ => none
  | .raised e _ => some (mcpError e)
  | .done st =>
    if st.allToolResults.isEmpty then some st.lastResponse
    else
      match svc st.callIdx with
      | .error e => some (mcpError e)
      | .ok response => some response.raw

/-! ### `/ask` endpoint fallback — `src/backend/main.py` -/

/-- Step 5 of the `ask` handler: call `run_mcp`; on success the answer is
its result (method `MCP_WITH_COMBINED_CONTEXT`), and if it raises, the
answer falls back to the raw RAG retrieval text (method `RAG_FALLBACK`). -/
def askStep5 (runMcpOutcome : Except String String) (rag_context : String) :
    String × String :=
  match runMcpOutcome with
  | .ok answer => (answer, "MCP_WITH_COMBINED_CONTEXT")
  | .error _ => (rag_context, "RAG_FALLBACK")

/-! ### Invariants and auxiliary predicates -/

/-- Invariant of the tool loop: the recorded tool calls have no two
consecutive entries with the same `tool_name`, and `last_used_tool` is the
name recorded last (if any). -/
def resultsInv (st : LoopState) : Prop :=
  List.Chain' (fun a b : ToolCallRecord => a.tool ≠ b.tool) st.allToolResults ∧
    ∀ r : ToolCallRecord, st.allToolResults.getLast? = some r →
      st.lastUsedTool = some r.tool

/-- `get_or_create_session` takes the create branch: no truthy live id was
supplied (checked against the store after cleanup, as in the source). -/
def takesCreatePath (cfg : CMConfig) (now : ℚ) (sid? : Option String)
    (store : Store) : Prop :=
  match sid? with
  | none => True
  | some sid => sid = "" ∨ lookup (cleanup_expired_sessions cfg now store) sid = none

/-! ### Concrete scenarios used in counterexamples and witnesses -/

/-- A calculator-style registered tool (handler echoes its argument). -/
def calcTool : MCPTool := ⟨"calculator", "evaluates arithmetic expressions", fun s => s⟩

/-- A scripted completion service whose every response is the same
well-formed tool call. -/
def repeatSvc : CompletionService :=
  fun _ => .ok (.toolCall "calculator" "2+2" "use calculator")

/-- A scripted completion service whose every `generate` call raises. -/
def errSvc : CompletionService := fun _ => .error "boom"

/-- A completion service whose n-th response is a well-formed tool call
with name `names n`, argument payload `args n` and raw text `raws n`. -/
def altService (names args raws : Nat → String) : CompletionService :=
  fun n => .ok (.toolCall (names n) (args n) (raws n))

/-- The loop state after `k` executed calls against `altService`
(every response a tool call, consecutive names distinct). -/
def altState (names args raws : Nat → String) (tools : List MCPTool)
    (rc : Option String) : Nat → LoopState
  | 0 => initState tools rc
  | k + 1 =>
    execStep tools
      { altState names args raws tools rc k with
        lastResponse := raws k
        callIdx := (altState names args raws tools rc k).callIdx + 1 }
      (names k) (args k)

/-- Alternating tool names for the C8 witness. -/
def wNames : Nat → String := fun n => if n % 2 = 0 then "toolA" else "toolB"

/-- Constant argument payloads for the C8 witness. -/
def wArgs : Nat → String := fun _ => "payload"

/-- Distinct raw response texts for the C8 witness. -/
def wRaws : Nat → String := fun n => "response" ++ toString n

/-- A `ConversationManager` with `max_sessions = 1` (all other parameters
default). -/
def cfgC3 : CMConfig := { defaultCMConfig with max_sessions := 1 }

/-- A `ConversationManager` with `max_context_length = 48`. -/
def cfg4 : CMConfig := { defaultCMConfig with max_context_length := 48 }

/-- Eight messages whose transcript lines are all `"user: "` (6 chars). -/
def msgs8 : List Message := List.replicate 8 ⟨"user", "", 0, "s"⟩

/-- A store holding one session with the eight messages above. -/
def store4 : Store := [("s", ⟨"s", msgs8, 0, 0⟩)]

/-- A store holding one session that is expired at time 2000 under the
default 30-minute timeout (`last_activity = 0`). -/
def storeExpired : Store := [("s", ⟨"s", [⟨"user", "hello", 0, "s"⟩], 0, 0⟩)]

/-- A store holding one session that is expired at time 10000
(`last_activity = 0`, default 30-minute timeout). -/
def storeOld : Store := [("old", ⟨"old", [], 0, 0⟩)]

/-- A store holding one live session whose id happens to be exactly the id
`_generate_session_id` produces at time 5 (`"default_5"`). -/
def storeC6 : Store := [("default_5", ⟨"default_5", [⟨"user", "hi", 1, "default_5"⟩], 5, 0⟩)]

/-! ## Theorems -/

/-! ### C7 — RelevanceFilter functional correctness -/

/-- C7: `filter_documents_by_similarity` returns exactly the pairs with
`score <= threshold` when at least `min_docs` of them pass; if fewer than
`min_docs` pass and the input is non-empty it returns the first `min_docs`
input pairs; an empty input yields the empty list; and a single candidate
with score above the threshold is still returned when `min_docs = 1`. -/
theorem filter_documents_by_similarity_spec :
    (∀ (l : List (Document × ℚ)) (th : ℚ) (md : Nat),
        md ≤ (l.filter (fun ds => decide (ds.2 ≤ th))).length →
        filter_documents_by_similarity l th md =
          l.filter (fun ds => decide (ds.2 ≤ th)))
    ∧ (∀ (l : List (Document × ℚ)) (th : ℚ) (md : Nat),
        (l.filter (fun ds => decide (ds.2 ≤ th))).length < md → l ≠ [] →
        filter_documents_by_similarity l th md = l.take md)
    ∧ (∀ (th : ℚ) (md : Nat), filter_documents_by_similarity [] th md = [])
    ∧ (∀ (d : Document) (s : ℚ), SIMILARITY_THRESHOLD < s →
        filter_documents_by_similarity [(d, s)] SIMILARITY_THRESHOLD 1 = [(d, s)]) := by
  refine ⟨?_, ?_, ?_, ?_⟩
  · intro l th md hmd
    unfold filter_documents_by_similarity
    by_cases hl : l = []
    · subst hl; simp
    · rw [if_neg hl, if_neg]
      intro hcond
      omega
  · intro l th md hmd hl
    unfold filter_documents_by_similarity
    rw [if_neg hl, if_pos]
    exact ⟨hmd, by cases l with | nil => exact absurd rfl hl | cons a l => simp⟩
  · intro th md; rfl
  · intro d s hs
    unfold filter_documents_by_similarity
    rw [if_neg (by simp), if_pos]
    · rfl
    · constructor
      · simp [List.filter, decide_eq_true_eq, not_le.mpr hs]
      · simp

/-- Witness for C7: one candidate scoring 2 (above the 1.5 threshold) with
`min_docs = 1` is still returned. -/
theorem filter_documents_by_similarity_spec_witness :
    SIMILARITY_THRESHOLD < (2 : ℚ) ∧
    filter_documents_by_similarity [(⟨"kb entry"⟩, 2)] SIMILARITY_THRESHOLD 1 =
      [(⟨"kb entry"⟩, 2)] :=
  ⟨by norm_num [SIMILARITY_THRESHOLD],
   filter_documents_by_similarity_spec.2.2.2 ⟨"kb entry"⟩ 2
     (by norm_num [SIMILARITY_THRESHOLD])⟩

/-! ### C10 — `get_conversation_context` is read-only -/

/-- C10: `get_conversation_context` leaves the session store unchanged for
every store, session id and question: it creates and deletes nothing,
appends or trims no messages, and refreshes no `last_activity`. -/
theorem get_conversation_context_readonly (cfg : CMConfig) (store : Store)
    (sid current_question : String) :
    (get_conversation_context cfg store sid current_question).2 = store := by
  unfold get_conversation_context
  cases lookup store sid with
  | none => rfl
  | some session =>
    by_cases h : session.messages = []
    · simp [h]
    · simp [h]

/-! ### C9 — exceptions are caught at the orchestrator boundary -/

/-- C9: if a `generate` call (or anything else) raises inside the tool
loop, `run_with_context` still returns a string — the `[MCP Error]`
diagnostic produced by the boundary `except` handler — and at the `/ask`
endpoint an exception escaping `run_mcp` makes the answer fall back to the
raw RAG retrieval text; no exception propagates to the caller. -/
theorem run_with_context_catches_exceptions (svc : CompletionService)
    (tools : List MCPTool) (rc : Option String) (fuel : Nat) (e : String)
    (st : LoopState)
    (h : runLoop svc tools fuel (initState tools rc) = .raised e st) :
    run_with_context svc tools rc fuel = some (mcpError e) ∧
    ∀ rag, askStep5 (.error e) rag = (rag, "RAG_FALLBACK") := by
  constructor
  · unfold run_with_context
    rw [h]
  · intro rag; rfl

/-- Witness for C9: a service whose first `generate` raises `"boom"`. -/
theorem run_with_context_catches_exceptions_witness :
    run_with_context errSvc [] none 1 = some (mcpError "boom") ∧
    askStep5 (.error "boom") "the raw retrieval text" =
      ("the raw retrieval text", "RAG_FALLBACK") := by
  have h := run_with_context_catches_exceptions errSvc [] none 1 "boom"
    (initState [] none) rfl
  exact ⟨h.1, h.2 "the raw retrieval text"⟩

/-! ### C2 — anti-duplication invariant of the tool loop -/

/-- The execute transition preserves the anti-duplication invariant: the
guard guarantees the new name differs from `last_used_tool`, which names
the last recorded entry. -/
theorem resultsInv_execStep (tools : List MCPTool) (st : LoopState)
    (tool_name arguments : String) (h : resultsInv st)
    (hdup : ¬ some tool_name = st.lastUsedTool) :
    resultsInv (execStep tools st tool_name arguments) := by
  constructor
  · show List.Chain' _ (st.allToolResults ++ [⟨tool_name, arguments, _⟩])
    rw [List.chain'_append]
    refine ⟨h.1, List.chain'_singleton _, ?_⟩
    intro x hx y hy
    simp only [List.head?_cons, Option.mem_def, Option.some.injEq] at hy
    subst hy
    have hlast := h.2 x (Option.mem_def.mp hx)
    intro hxy
    exact hdup (by rw [hlast, hxy])
  · intro r hr
    simp only [execStep, List.getLast?_concat, Option.some.injEq] at hr
    subst hr
    rfl

/-- Any update that leaves `all_tool_results` and `last_used_tool`
untouched preserves the invariant. -/
theorem resultsInv_update (st st2 : LoopState)
    (hres : st2.allToolResults = st.allToolResults)
    (hlast : st2.lastUsedTool = st.lastUsedTool) (h : resultsInv st) :
    resultsInv st2 := by
  constructor
  · rw [hres]; exact h.1
  · intro r hr
    rw [hres] at hr
    rw [hlast]
    exact h.2 r hr

/-- The tool loop preserves the anti-duplication invariant from any state,
for any completion-service behaviour and any fuel. -/
theorem runLoop_preserves_resultsInv (svc : CompletionService)
    (tools : List MCPTool) :
    ∀ (fuel : Nat) (st : LoopState), resultsInv st →
      resultsInv (runLoop svc tools fuel st).state := by
  intro fuel
  induction fuel with
  | zero => intro st h; exact h
  | succ f ih =>
    intro st h
    show resultsInv (runLoop svc tools (f + 1) st).state
    rw [runLoop]
    by_cases hc : st.toolCallsMade < maxToolCalls
    · rw [if_pos hc]
      cases hsvc : svc st.callIdx with
      | error e => exact h
      | ok response =>
        cases response with
        | plain t =>
          exact resultsInv_update st _ rfl rfl h
        | toolCall tool_name arguments raw =>
          by_cases hdup : some tool_name =
              (⟨st.systemPrompt, st.toolCallsMade, st.allToolResults,
                st.lastUsedTool, (ModelResponse.toolCall tool_name arguments raw).raw,
                st.callIdx + 1⟩ : LoopState).lastUsedTool
          · simp only [hdup, if_pos]
            exact ih _ (resultsInv_update st _ rfl rfl h)
          · simp only [if_neg hdup]
            exact ih _ (resultsInv_execStep tools _ tool_name arguments
              (resultsInv_update st _ rfl rfl h) hdup)
    · rw [if_neg hc]
      exact h

/-- C2: for every completion-service behaviour (including raising calls)
and every fuel bound, the ordered list `all_tool_results` accumulated by
the tool loop of `run_with_context` never contains two consecutive records
with the same tool name. -/
theorem run_with_context_no_consecutive_duplicate_tools
    (svc : CompletionService) (tools : List MCPTool) (rc : Option String)
    (fuel : Nat) :
    List.Chain' (fun a b : ToolCallRecord => a.tool ≠ b.tool)
      ((runLoop svc tools fuel (initState tools rc)).state.allToolResults) :=
  (runLoop_preserves_resultsInv svc tools fuel (initState tools rc)
    ⟨List.chain'_nil, fun r hr => by simp [initState] at hr⟩).1

/-! ### C1 — the duplicate guard can loop forever -/

/-- Once one call to `"calculator"` has been executed, the repeating
service trips the duplicate guard on every subsequent iteration; the
guard's `continue` does not increment `tool_calls_made`, so the loop
consumes all fuel without ever finishing. -/
theorem runLoop_repeat_stuck :
    ∀ (fuel : Nat) (st : LoopState), st.toolCallsMade = 1 →
      st.lastUsedTool = some "calculator" →
      ∃ st2, runLoop repeatSvc [calcTool] fuel st = .outOfFuel st2 := by
  intro fuel
  induction fuel with
  | zero => intro st h1 h2; exact ⟨st, rfl⟩
  | succ f ih =>
    intro st h1 h2
    rw [runLoop]
    rw [if_pos (by rw [h1]; norm_num [maxToolCalls])]
    show ∃ st2,
      (if some "calculator" =
          ({ st with lastResponse := "use calculator", callIdx := st.callIdx + 1 }
            : LoopState).lastUsedTool then
        runLoop repeatSvc [calcTool] f _
      else runLoop repeatSvc [calcTool] f _) = .outOfFuel st2
    rw [if_pos (by simpa using h2.symm)]
    exact ih _ (by simpa using h1) (by simpa using h2)

/-- C1: the claim fails on the code — for the scripted completion service
whose every response requests the same tool, the tool loop of
`run_with_context` never terminates at any fuel bound (the executed-call
counter is stuck at 1, below the ceiling of 5), so no answer is ever
returned.  This contradicts the source's own `Prevent infinite loops`
intent for `max_tool_calls`. -/
theorem run_with_context_repeating_tool_never_terminates :
    ∀ fuel : Nat, run_with_context repeatSvc [calcTool] none fuel = none := by
  intro fuel
  have h : ∃ st2, runLoop repeatSvc [calcTool] fuel (initState [calcTool] none) =
      .outOfFuel st2 := by
    cases fuel with
    | zero => exact ⟨_, rfl⟩
    | succ f =>
      have hstep : runLoop repeatSvc [calcTool] (f + 1) (initState [calcTool] none) =
          runLoop repeatSvc [calcTool] f
            (execStep [calcTool]
              { initState [calcTool] none with
                lastResponse := "use calculator", callIdx := 1 }
              "calculator" "2+2") := by
        rw [runLoop]
        rfl
      rw [hstep]
      exact runLoop_repeat_stuck f _ rfl rfl
  obtain ⟨st2, h2⟩ := h
  unfold run_with_context
  rw [h2]

/-! ### C8 — ceiling termination with an alternating tool-calling service -/

/-- The executed-call counter after `k` executed calls. -/
theorem altState_toolCallsMade (names args raws : Nat → String)
    (tools : List MCPTool) (rc : Option String) :
    ∀ k, (altState names args raws tools rc k).toolCallsMade = k := by
  intro k
  induction k with
  | zero => rfl
  | succ n ih => simp [altState, execStep, ih]

/-- The number of `generate` calls after `k` executed calls. -/
theorem altState_callIdx (names args raws : Nat → String)
    (tools : List MCPTool) (rc : Option String) :
    ∀ k, (altState names args raws tools rc k).callIdx = k := by
  intro k
  induction k with
  | zero => rfl
  | succ n ih => simp [altState, execStep, ih]

/-- `last_used_tool` after `k + 1` executed calls. -/
theorem altState_lastUsedTool (names args raws : Nat → String)
    (tools : List MCPTool) (rc : Option String) (k : Nat) :
    (altState names args raws tools rc (k + 1)).lastUsedTool = some (names k) := by
  simp [altState, execStep]

/-- One executing iteration of the tool loop, as a rewrite step. -/
theorem runLoop_exec_step (svc : CompletionService) (tools : List MCPTool)
    (fuel : Nat) (st : LoopState) (name arguments raw : String)
    (hc : st.toolCallsMade < maxToolCalls)
    (hsvc : svc st.callIdx = .ok (.toolCall name arguments raw))
    (hdup : ¬ some name = st.lastUsedTool) :
    runLoop svc tools (fuel + 1) st =
      runLoop svc tools fuel
        (execStep tools { st with lastResponse := raw, callIdx := st.callIdx + 1 }
          name arguments) := by
  rw [runLoop, if_pos hc, hsvc]
  show (if some name = st.lastUsedTool then _ else _) = _
  rw [if_neg hdup]
  rfl

/-- Against a service whose every response is a tool call with pairwise
distinct consecutive names, the loop executes until the counter reaches
the ceiling and then exits normally. -/
theorem runLoop_alt_done (names args raws : Nat → String)
    (tools : List MCPTool) (rc : Option String)
    (h : ∀ n, names (n + 1) ≠ names n) :
    ∀ (j k fuel : Nat), k + j = 5 →
      runLoop (altService names args raws) tools (fuel + j + 1)
          (altState names args raws tools rc k) =
        .done (altState names args raws tools rc 5) := by
  intro j
  induction j with
  | zero =>
    intro k fuel hk
    have hk5 : k = 5 := by omega
    subst hk5
    rw [runLoop, if_neg]
    rw [altState_toolCallsMade]
    norm_num [maxToolCalls]
  | succ j ih =>
    intro k fuel hk
    have hstep := runLoop_exec_step (altService names args raws) tools (fuel + j + 1)
      (altState names args raws tools rc k) (names k) (args k) (raws k)
      (by rw [altState_toolCallsMade]; simp only [maxToolCalls]; omega)
      (by rw [altState_callIdx]; rfl)
      (by
        cases k with
        | zero => simp [altState, initState]
        | succ n =>
          rw [altState_lastUsedTool]
          simp only [Option.some.injEq]
          exact h n)
    have harith : fuel + (j + 1) + 1 = (fuel + j + 1) + 1 := by omega
    rw [harith, hstep]
    exact ih (k + 1) fuel (by omega)

/-- C8: for a completion service whose every response is a well-formed tool
call naming a tool different from the previously executed one, the loop in
`run_with_context` executes exactly `max_tool_calls = 5` tool calls,
records exactly five `ToolCallRecord`s, then performs the synthesis step
(one further LLM call) and returns its text rather than raising an
error. -/
theorem run_with_context_ceiling_synthesis (names args raws : Nat → String)
    (tools : List MCPTool) (rc : Option String) (fuel : Nat)
    (h : ∀ n, names (n + 1) ≠ names n) :
    runLoop (altService names args raws) tools (fuel + 6) (initState tools rc) =
        .done (altState names args raws tools rc 5) ∧
    (altState names args raws tools rc 5).toolCallsMade = 5 ∧
    (altState names args raws tools rc 5).allToolResults.length = 5 ∧
    (altState names args raws tools rc 5).allToolResults.map (fun r => r.tool) =
        [names 0, names 1, names 2, names 3, names 4] ∧
    run_with_context (altService names args raws) tools rc (fuel + 6) =
        some (raws 5) := by
  have harith : fuel + 6 = fuel + 5 + 1 := by omega
  have hdone : runLoop (altService names args raws) tools (fuel + 5 + 1)
      (initState tools rc) = .done (altState names args raws tools rc 5) :=
    runLoop_alt_done names args raws tools rc h 5 0 fuel (by omega)
  rw [harith]
  refine ⟨hdone, altState_toolCallsMade names args raws tools rc 5, ?_, ?_, ?_⟩
  · simp [altState, execStep, initState]
  · simp [altState, execStep, initState]
  · unfold run_with_context
    rw [hdone]
    dsimp only
    rw [if_neg (by simp [altState, execStep, initState])]
    rw [altState_callIdx]
    rfl

/-- Witness for C8: the concrete alternating two-tool script. -/
theorem run_with_context_ceiling_synthesis_witness :
    runLoop (altService wNames wArgs wRaws) [] 6 (initState [] none) =
        .done (altState wNames wArgs wRaws [] none 5) ∧
    (altState wNames wArgs wRaws [] none 5).toolCallsMade = 5 ∧
    (altState wNames wArgs wRaws [] none 5).allToolResults.length = 5 ∧
    (altState wNames wArgs wRaws [] none 5).allToolResults.map (fun r => r.tool) =
        [wNames 0, wNames 1, wNames 2, wNames 3, wNames 4] ∧
    run_with_context (altService wNames wArgs wRaws) [] none 6 = some (wRaws 5) :=
  run_with_context_ceiling_synthesis wNames wArgs wRaws [] none 0
    (by
      intro n
      have h2 := Nat.mod_two_eq_zero_or_one n
      rcases h2 with h2 | h2 <;> simp [wNames, Nat.add_mod, h2])

/-! ### Association-list store lemmas -/

/-- Dict assignment grows the store by at most one entry. -/
theorem insertSession_length_le (store : Store) (sid : String)
    (s : ConversationSession) :
    (insertSession store sid s).length ≤ store.length + 1 := by
  induction store with
  | nil => simp [insertSession]
  | cons e rest ih =>
    rw [insertSession]
    by_cases h : e.1 = sid
    · rw [if_pos h]; simp
    · rw [if_neg h]
      simpa using Nat.succ_le_succ ih

/-- Every entry of the store after a dict assignment is either an old
entry or the assigned one. -/
theorem mem_insertSession (store : Store) (sid : String)
    (s : ConversationSession) (e : String × ConversationSession)
    (he : e ∈ insertSession store sid s) : e ∈ store ∨ e = (sid, s) := by
  induction store with
  | nil => simp [insertSession] at he; right; exact he
  | cons f rest ih =>
    rw [insertSession] at he
    by_cases h : f.1 = sid
    · rw [if_pos h] at he
      rcases List.mem_cons.mp he with he | he
      · right; exact he
      · left; exact List.mem_cons_of_mem f he
    · rw [if_neg h] at he
      rcases List.mem_cons.mp he with he | he
      · left; exact he ▸ List.mem_cons_self f rest
      · rcases ih he with he | he
        · left; exact List.mem_cons_of_mem f he
        · right; exact he

/-- Dict assignment binds the assigned key to the assigned value. -/
theorem lookup_insertSession_self (store : Store) (sid : String)
    (s : ConversationSession) :
    lookup (insertSession store sid s) sid = some s := by
  induction store with
  | nil => simp [insertSession, lookup]
  | cons e rest ih =>
    rw [insertSession]
    by_cases h : e.1 = sid
    · rw [if_pos h, lookup, if_pos rfl]
    · rw [if_neg h, lookup, if_neg h]
      exact ih

/-- The keys after a dict assignment are among the assigned key and the
old keys. -/
theorem mem_keys_insertSession (store : Store) (sid : String)
    (s : ConversationSession) (k : String)
    (hk : k ∈ (insertSession store sid s).map Prod.fst) :
    k = sid ∨ k ∈ store.map Prod.fst := by
  rcases List.mem_map.mp hk with ⟨e, he, hek⟩
  rcases mem_insertSession store sid s e he with he | he
  · right; exact hek ▸ List.mem_map_of_mem Prod.fst he
  · left; rw [← hek, he]

/-- Dict assignment preserves key uniqueness. -/
theorem keysNodup_insertSession (store : Store) (sid : String)
    (s : ConversationSession) (h : keysNodup store) :
    keysNodup (insertSession store sid s) := by
  induction store with
  | nil => simp [insertSession, keysNodup]
  | cons e rest ih =>
    have h1 : e.1 ∉ rest.map Prod.fst := by
      have := h
      simp only [keysNodup, List.map_cons, List.nodup_cons] at this
      exact this.1
    have h2 : keysNodup rest := by
      have := h
      simp only [keysNodup, List.map_cons, List.nodup_cons] at this
      exact this.2
    rw [insertSession]
    by_cases hk : e.1 = sid
    · rw [if_pos hk]
      simp only [keysNodup, List.map_cons, List.nodup_cons]
      exact ⟨hk ▸ h1, h2⟩
    · rw [if_neg hk]
      simp only [keysNodup, List.map_cons, List.nodup_cons]
      refine ⟨?_, ih h2⟩
      intro hmem
      rcases mem_keys_insertSession rest sid s e.1 hmem with he | he
      · exact hk he
      · exact h1 he

/-- Filtering preserves key uniqueness. -/
theorem keysNodup_filter (store : Store) (p : String × ConversationSession → Bool)
    (h : keysNodup store) : keysNodup (store.filter p) := by
  exact (h.sublist ((List.filter_sublist store).map Prod.fst))

/-! ### Cleanup lemmas -/

/-- Every session surviving the expiry phase is within the window. -/
theorem mem_keptSessions_not_expired (cfg : CMConfig) (now : ℚ) (store : Store)
    (e : String × ConversationSession) (he : e ∈ keptSessions cfg now store) :
    ¬ (now - e.2.last_activity > cfg.session_timeout_minutes * 60) :=
  of_decide_eq_true (List.mem_filter.mp he).2

/-- After `_cleanup_expired_sessions`, every remaining session is within
the expiry window (the first phase filters on exactly this predicate and
the capacity phase only removes further entries). -/
theorem mem_cleanup_not_expired (cfg : CMConfig) (now : ℚ) (store : Store)
    (e : String × ConversationSession)
    (he : e ∈ cleanup_expired_sessions cfg now store) :
    ¬ (now - e.2.last_activity > cfg.session_timeout_minutes * 60) := by
  unfold cleanup_expired_sessions at he
  split at he
  · exact mem_keptSessions_not_expired cfg now store e (List.mem_filter.mp he).1
  · exact mem_keptSessions_not_expired cfg now store e he

/-- Cleanup preserves key uniqueness. -/
theorem keysNodup_cleanup (cfg : CMConfig) (now : ℚ) (store : Store)
    (h : keysNodup store) : keysNodup (cleanup_expired_sessions cfg now store) := by
  unfold cleanup_expired_sessions
  split
  · exact keysNodup_filter _ _ (keysNodup_filter _ _ h)
  · exact keysNodup_filter _ _ h

/-- Cleanup leaves at most `max_sessions` sessions (given unique keys):
the capacity phase deletes exactly enough of the least-recently-active
ids. -/
theorem cleanup_length_le (cfg : CMConfig) (now : ℚ) (store : Store)
    (h : keysNodup store) :
    (cleanup_expired_sessions cfg now store).length ≤ cfg.max_sessions := by
  unfold cleanup_expired_sessions
  split
  · next hlen =>
    have hperm : List.Perm
        ((keptSessions cfg now store).mergeSort
          (fun a b => decide (a.2.last_activity ≤ b.2.last_activity)))
        (keptSessions cfg now store) :=
      List.mergeSort_perm (keptSessions cfg now store) _
    have hkeptNodup : (keptSessions cfg now store).Nodup :=
      (keysNodup_filter store _ h).of_map
    have hresNodup :
        ((keptSessions cfg now store).filter
          (fun e => decide (e.1 ∉ evictIds cfg now store))).Nodup :=
      hkeptNodup.filter _
    have hsub : (keptSessions cfg now store).filter
        (fun e => decide (e.1 ∉ evictIds cfg now store)) ⊆
        ((keptSessions cfg now store).mergeSort
          (fun a b => decide (a.2.last_activity ≤ b.2.last_activity))).drop
          ((keptSessions cfg now store).length - cfg.max_sessions) := by
      intro e he
      have hin : e ∈ keptSessions cfg now store := (List.mem_filter.mp he).1
      have hnot : e.1 ∉ evictIds cfg now store :=
        of_decide_eq_true (List.mem_filter.mp he).2
      have hins : e ∈ (keptSessions cfg now store).mergeSort
          (fun a b => decide (a.2.last_activity ≤ b.2.last_activity)) :=
        hperm.mem_iff.mpr hin
      rw [← List.take_append_drop
        ((keptSessions cfg now store).length - cfg.max_sessions)
        ((keptSessions cfg now store).mergeSort
          (fun a b => decide (a.2.last_activity ≤ b.2.last_activity)))] at hins
      rcases List.mem_append.mp hins with hins | hins
      · exact absurd (List.mem_map_of_mem Prod.fst hins) hnot
      · exact hins
    have hlenle := (hresNodup.subperm hsub).length_le
    have hdrop := List.length_drop
      ((keptSessions cfg now store).length - cfg.max_sessions)
      ((keptSessions cfg now store).mergeSort
        (fun a b => decide (a.2.last_activity ≤ b.2.last_activity)))
    have hslen : ((keptSessions cfg now store).mergeSort
        (fun a b => decide (a.2.last_activity ≤ b.2.last_activity))).length =
        (keptSessions cfg now store).length := hperm.length_eq
    omega
  · next hlen => omega

/-! ### C3 — capacity after `get_or_create_session` -/

/-- C3 (amended): a single `get_or_create_session` call leaves at most
`max_sessions + 1` sessions (eviction runs before the possible insertion),
and preserves key uniqueness — so along any call sequence the store never
exceeds `max_sessions + 1` sessions. -/
theorem get_or_create_session_capacity (cfg : CMConfig) (now : ℚ)
    (sid? : Option String) (store : Store) (h : keysNodup store) :
    ((get_or_create_session cfg now sid? store).2).length ≤ cfg.max_sessions + 1 ∧
    keysNodup (get_or_create_session cfg now sid? store).2 := by
  have hc := cleanup_length_le cfg now store h
  have hn := keysNodup_cleanup cfg now store h
  unfold get_or_create_session createSessionIn
  cases sid? with
  | none =>
    refine ⟨?_, keysNodup_insertSession _ _ _ hn⟩
    have := insertSession_length_le (cleanup_expired_sessions cfg now store)
      (newSessionIdOf now none)
      ⟨newSessionIdOf now none, [], now, now⟩
    simpa using Nat.le_trans this (by omega)
  | some sid =>
    dsimp only
    by_cases hs : sid = ""
    · rw [if_pos hs]
      refine ⟨?_, keysNodup_insertSession _ _ _ hn⟩
      have := insertSession_length_le (cleanup_expired_sessions cfg now store)
        (newSessionIdOf now (some sid))
        ⟨newSessionIdOf now (some sid), [], now, now⟩
      simpa using Nat.le_trans this (by omega)
    · rw [if_neg hs]
      cases hl : lookup (cleanup_expired_sessions cfg now store) sid with
      | some s =>
        refine ⟨?_, keysNodup_insertSession _ _ _ hn⟩
        have := insertSession_length_le (cleanup_expired_sessions cfg now store)
          sid { s with last_activity := now }
        simpa using Nat.le_trans this (by omega)
      | none =>
        refine ⟨?_, keysNodup_insertSession _ _ _ hn⟩
        have := insertSession_length_le (cleanup_expired_sessions cfg now store)
          (newSessionIdOf now (some sid))
          ⟨newSessionIdOf now (some sid), [], now, now⟩
        simpa using Nat.le_trans this (by omega)

/-- Witness for C3's amended theorem: a concrete two-session store with
unique keys under `max_sessions = 1`. -/
theorem get_or_create_session_capacity_witness :
    keysNodup [("a", ⟨"a", [], 0, 0⟩), ("b", ⟨"b", [], 0, 0⟩)] ∧
    ((get_or_create_session cfgC3 0 (some "c")
        [("a", ⟨"a", [], 0, 0⟩), ("b", ⟨"b", [], 0, 0⟩)]).2).length ≤
      cfgC3.max_sessions + 1 :=
  ⟨by decide,
   (get_or_create_session_capacity cfgC3 0 (some "c")
     [("a", ⟨"a", [], 0, 0⟩), ("b", ⟨"b", [], 0, 0⟩)] (by decide)).1⟩

/-- Counterexample to C3 as stated: with `max_sessions = 1`, a first call
creates one session and a second call (fresh id, no time elapsed) leaves
two sessions in the store — more than `max_sessions`. -/
theorem get_or_create_session_exceeds_max :
    cfgC3.max_sessions = 1 ∧
    ((get_or_create_session cfgC3 0 (some "x")
        (get_or_create_session cfgC3 0 none []).2).2).length = 2 := by
  constructor
  · rfl
  · with_unfolding_all rfl

/-! ### C5 — expiry -/

/-- C5 (amended): after a `get_or_create_session` call completes, every
session in the store is within the expiry window or was freshly
created/refreshed at the current instant — in particular a session whose
`last_activity` lies more than `session_timeout_minutes` in the past is
removed (or replaced by a fresh one) by the next `get_or_create_session`;
`get_conversation_context` (and some `add_message` paths) do not remove
it. -/
theorem get_or_create_session_removes_expired (cfg : CMConfig) (now : ℚ)
    (sid? : Option String) (store : Store) :
    ∀ e ∈ (get_or_create_session cfg now sid? store).2,
      ¬ (now - e.2.last_activity > cfg.session_timeout_minutes * 60) ∨
        e.2.last_activity = now := by
  intro e he
  unfold get_or_create_session createSessionIn at he
  cases sid? with
  | none =>
    rcases mem_insertSession _ _ _ e he with h1 | h1
    · exact Or.inl (mem_cleanup_not_expired cfg now store e h1)
    · right; rw [h1]
  | some sid =>
    dsimp only at he
    split at he
    · rcases mem_insertSession _ _ _ e he with h1 | h1
      · exact Or.inl (mem_cleanup_not_expired cfg now store e h1)
      · right; rw [h1]
    · split at he
      · rcases mem_insertSession _ _ _ e he with h1 | h1
        · exact Or.inl (mem_cleanup_not_expired cfg now store e h1)
        · right; rw [h1]
      · rcases mem_insertSession _ _ _ e he with h1 | h1
        · exact Or.inl (mem_cleanup_not_expired cfg now store e h1)
        · right; rw [h1]

/-- Witness for C5's amended theorem: the expired session `"old"` is
replaced by a fresh one whose `last_activity` is the current time. -/
theorem get_or_create_session_removes_expired_witness :
    ("old", (⟨"old", [], 10000, 10000⟩ : ConversationSession)) ∈
        (get_or_create_session defaultCMConfig 10000 (some "old") storeOld).2 ∧
    (¬ ((10000 : ℚ) -
          (⟨"old", [], 10000, 10000⟩ : ConversationSession).last_activity >
          defaultCMConfig.session_timeout_minutes * 60) ∨
      (⟨"old", [], 10000, 10000⟩ : ConversationSession).last_activity = 10000) := by
  have hmem : ("old", (⟨"old", [], 10000, 10000⟩ : ConversationSession)) ∈
      (get_or_create_session defaultCMConfig 10000 (some "old") storeOld).2 := by
    have heq : (get_or_create_session defaultCMConfig 10000 (some "old") storeOld).2 =
        [("old", ⟨"old", [], 10000, 10000⟩)] := by with_unfolding_all rfl
    rw [heq]
    exact List.mem_singleton.mpr rfl
  exact ⟨hmem, get_or_create_session_removes_expired defaultCMConfig 10000
    (some "old") storeOld _ hmem⟩

/-- Counterexample to C5 as stated: the session `"s"` is expired at time
2000 (idle 2000 s > 1800 s), yet `get_conversation_context` — one of the
store operations the claim names — leaves it in the store. -/
theorem get_conversation_context_keeps_expired :
    lookup storeExpired "s" = some ⟨"s", [⟨"user", "hello", 0, "s"⟩], 0, 0⟩ ∧
    (2000 : ℚ) - 0 > defaultCMConfig.session_timeout_minutes * 60 ∧
    (get_conversation_context defaultCMConfig storeExpired "s" "q").2 =
      storeExpired := by
  refine ⟨rfl, by norm_num [defaultCMConfig], rfl⟩

/-! ### C6 — session creation -/

/-- C6 (amended): when `get_or_create_session` finds no truthy live id, it
registers a fresh session with an empty message list under
`new_session_id = session_id or "default_" + int(now)` — the supplied id
verbatim when one was given (no timestamp added), otherwise the generated
id, which is not guaranteed distinct from live ids (a collision overwrites
the colliding session). -/
theorem get_or_create_session_create_path (cfg : CMConfig) (now : ℚ)
    (sid? : Option String) (store : Store)
    (h : takesCreatePath cfg now sid? store) :
    (get_or_create_session cfg now sid? store).1 = newSessionIdOf now sid? ∧
    lookup (get_or_create_session cfg now sid? store).2 (newSessionIdOf now sid?) =
      some ⟨newSessionIdOf now sid?, [], now, now⟩ := by
  unfold get_or_create_session createSessionIn
  cases sid? with
  | none => exact ⟨rfl, lookup_insertSession_self _ _ _⟩
  | some sid =>
    dsimp only
    unfold takesCreatePath at h
    by_cases hs : sid = ""
    · rw [if_pos hs]
      exact ⟨rfl, lookup_insertSession_self _ _ _⟩
    · rw [if_neg hs]
      rcases h with h | h
      · exact absurd h hs
      · rw [h]
        exact ⟨rfl, lookup_insertSession_self _ _ _⟩

/-- Witness for C6's amended theorem: a supplied absent id `"abc"` is used
verbatim and maps to a fresh empty session. -/
theorem get_or_create_session_create_path_witness :
    takesCreatePath defaultCMConfig 0 (some "abc") [] ∧
    ((get_or_create_session defaultCMConfig 0 (some "abc") []).1 =
        newSessionIdOf 0 (some "abc") ∧
      lookup (get_or_create_session defaultCMConfig 0 (some "abc") []).2
          (newSessionIdOf 0 (some "abc")) =
        some ⟨newSessionIdOf 0 (some "abc"), [], 0, 0⟩) :=
  ⟨Or.inr rfl, get_or_create_session_create_path defaultCMConfig 0 (some "abc") []
    (Or.inr rfl)⟩

/-- Counterexample to C6 as stated: at time 5, with the live session
`"default_5"` in the store, a create call with no supplied id generates
exactly `"default_5"` — not distinct from every live session id — and
overwrites the live session (its messages are lost). -/
theorem generated_session_id_collides :
    lookup storeC6 "default_5" =
        some ⟨"default_5", [⟨"user", "hi", 1, "default_5"⟩], 5, 0⟩ ∧
    (get_or_create_session defaultCMConfig 5 none storeC6).1 = "default_5" ∧
    lookup (get_or_create_session defaultCMConfig 5 none storeC6).2 "default_5" =
        some ⟨"default_5", [], 5, 5⟩ := by
  refine ⟨rfl, ?_, ?_⟩ <;> with_unfolding_all rfl

/-! ### C4 — context budget and oldest-first truncation -/

/-- The accumulation loop never pushes the running character total past
`max_context_length`. -/
theorem collectParts_total_le (cfg : CMConfig) :
    ∀ (l : List Message) (t : Nat), t ≤ cfg.max_context_length →
      (collectParts cfg l t).2 ≤ cfg.max_context_length := by
  intro l
  induction l with
  | nil => intro t ht; exact ht
  | cons m rest ih =>
    intro t ht
    rw [collectParts]
    split
    · exact ht
    · next hguard => exact ih _ (by omega)

/-- The running total is the initial total plus the lengths of the
accumulated lines. -/
theorem collectParts_sum (cfg : CMConfig) :
    ∀ (l : List Message) (t : Nat),
      (collectParts cfg l t).2 =
        t + (((collectParts cfg l t).1).map String.length).sum := by
  intro l
  induction l with
  | nil => intro t; simp [collectParts]
  | cons m rest ih =>
    intro t
    rw [collectParts]
    split
    · simp
    · next hguard =>
      dsimp only
      rw [ih (t + (msgLine m).length)]
      simp
      omega

/-- The accumulated lines are the images of a prefix of the (reversed)
input, in reverse order. -/
theorem collectParts_prefix (cfg : CMConfig) :
    ∀ (l : List Message) (t : Nat),
      ∃ p, List.IsPrefix p l ∧
        (collectParts cfg l t).1 = (p.map msgLine).reverse := by
  intro l
  induction l with
  | nil => intro t; exact ⟨[], ⟨[], rfl⟩, by simp [collectParts]⟩
  | cons m rest ih =>
    intro t
    rw [collectParts]
    split
    · exact ⟨[], ⟨m :: rest, rfl⟩, rfl⟩
    · next hguard =>
      obtain ⟨p, hp, he⟩ := ih (t + (msgLine m).length)
      refine ⟨m :: p, ?_, ?_⟩
      · obtain ⟨tail, htail⟩ := hp
        exact ⟨tail, by simp [htail]⟩
      · dsimp only
        rw [he]
        simp

/-- The sum of the line lengths of the assembled transcript (question line
included when it fits) is within `max_context_length`. -/
theorem contextParts_sum_le (cfg : CMConfig) (msgs : List Message) (q : String) :
    (((contextParts cfg msgs q).1).map String.length).sum ≤
      cfg.max_context_length := by
  unfold contextParts
  have hsum := collectParts_sum cfg msgs.reverse 0
  have htot := collectParts_total_le cfg msgs.reverse 0 (Nat.zero_le _)
  split
  · next hfit =>
    simp only [List.map_append, List.sum_append, List.map_cons, List.sum_cons,
      List.map_nil, List.sum_nil]
    omega
  · next hfit => omega

/-- `"\n".join` adds one character per separator: the joined length is at
most the sum of the line lengths plus the number of lines minus one. -/
theorem joinLines_length :
    ∀ parts : List String,
      (joinLines parts).length ≤ (parts.map String.length).sum + parts.length - 1 := by
  intro parts
  induction parts with
  | nil => simp [joinLines]
  | cons x rest ih =>
    cases rest with
    | nil => simp [joinLines]
    | cons y t =>
      rw [joinLines]
      have h1 : ("\n" : String).length = 1 := rfl
      simp only [String.length_append, List.map_cons, List.sum_cons,
        List.length_cons, h1] at ih ⊢
      omega

/-- C4 (amended): the text returned by `get_conversation_context` has
length at most `max_context_length` plus the number of returned lines (one
newline separator per line; the sum of the line lengths themselves —
current-question line included when it fits — never exceeds
`max_context_length`), and the transcript built by the accumulation loop
consists of the `sender: text` lines of a suffix of the session's messages
in chronological order — truncation drops exactly the oldest messages. -/
theorem get_conversation_context_budget_and_suffix :
    (∀ (cfg : CMConfig) (store : Store) (sid q : String),
      ((get_conversation_context cfg store sid q).1.1).length ≤
        cfg.max_context_length +
          (get_conversation_context cfg store sid q).1.2.message_count)
    ∧ (∀ (cfg : CMConfig) (msgs : List Message),
        ∃ s, List.IsSuffix s msgs ∧
          (collectParts cfg msgs.reverse 0).1 = s.map msgLine) := by
  constructor
  · intro cfg store sid q
    unfold get_conversation_context
    cases hl : lookup store sid with
    | none => simp
    | some session =>
      dsimp only
      by_cases hm : session.messages = []
      · simp [hm]
      · rw [if_neg hm]
        dsimp only
        have hlen := joinLines_length (contextParts cfg session.messages q).1
        have hsum := contextParts_sum_le cfg session.messages q
        omega
  · intro cfg msgs
    obtain ⟨p, hp, he⟩ := collectParts_prefix cfg msgs.reverse 0
    refine ⟨p.reverse, ?_, ?_⟩
    · have := List.reverse_suffix.mpr hp
      rwa [List.reverse_reverse] at this
    · rw [he, List.map_reverse]

/-- Counterexample to C4 as stated: with `max_context_length = 48`, eight
messages whose lines are all `"user: "` (6 chars each) all fit (total 48),
the empty current question's line (`"user: "`, 6 chars) does not fit, and
the seven newline separators make the returned text 55 characters long —
exceeding `max_context_length + length(current-question line) = 54`. -/
theorem get_conversation_context_exceeds_claimed_budget :
    ((get_conversation_context cfg4 store4 "s" "").1.1).length >
      cfg4.max_context_length + ("user: " ++ "").length := by
  decide
